import Mathlib

/-!
# Verification of the cffi owned-pointer core

Shallow embedding of `src/lib.rs`: the opaque marker (`Private`/`Never`),
the deallocation capability (`Alloc`), the owned pointer (`Ptr`) with its
accessors, and the drop/forget runtime that governs when `Drop::drop` runs.

Raw machine addresses are modelled as `Nat`, with `0` playing the role of
the null pointer.  The effect of the consumer-supplied `Alloc::free` is
instrumented as appending the argument address to a log of release calls,
matching the spec's "instrumented release counter".  Rust's drop glue and
`mem::forget` are modelled by a two-state handle machine (`Status.owning`
when the drop glue is still armed, `Status.released` once `mem::forget`
ran or the drop glue already fired), driven by an operation trace.
-/

namespace cffi

/-- A raw machine address (the value of a `*mut T` / `*const T`). `0` is null. -/
abbrev Addr := Nat

/-- Log of the addresses passed to `Alloc::free`, in call order. -/
abbrev FreeLog := List Addr

/-- The deallocation capability `trait Alloc { fn free(this: *mut Self); }`.
The consumer-supplied foreign destructor is instrumented: its only observable
effect here is recording the address it was invoked on. -/
def Alloc.free (this : Addr) (log : FreeLog) : FreeLog :=
  log ++ [this]

/-- `pub struct Ptr<T: Alloc>(*mut T);` — the owned pointer, holding the raw
address stored in field 0. -/
structure Ptr where
  raw : Addr

/-- `unsafe fn from_raw(raw: *mut T) -> Ptr<T> { Ptr(raw) }` — stores the
address unchanged, with no validation. -/
def Ptr.from_raw (raw : Addr) : Ptr :=
  ⟨raw⟩

/-- `fn into_raw(ptr: Ptr<T>) -> *mut T { let raw = ptr.0; mem::forget(ptr); raw }`
— the returned value.  The `mem::forget` effect (disarming the drop glue) is
modelled by `step .unwrap` on the handle machine below. -/
def Ptr.into_raw (ptr : Ptr) : Addr :=
  ptr.raw

/-- `fn as_ptr(ptr: &Ptr<T>) -> *const T { ptr.0 }`. -/
def Ptr.as_ptr (ptr : Ptr) : Addr :=
  ptr.raw

/-- `fn as_raw(ptr: &mut Ptr<T>) -> *mut T { ptr.0 }`. -/
def Ptr.as_raw (ptr : Ptr) : Addr :=
  ptr.raw

/-- `Deref::deref`: `unsafe { mem::transmute(self.0) }` — the returned `&T`
denotes exactly the stored address. -/
def Ptr.deref (ptr : Ptr) : Addr :=
  ptr.raw

/-- `DerefMut::deref_mut`: `unsafe { mem::transmute(self.0) }`. -/
def Ptr.deref_mut (ptr : Ptr) : Addr :=
  ptr.raw

/-- `AsRef::as_ref`: `&**self` — a reborrow of `deref`. -/
def Ptr.as_ref (ptr : Ptr) : Addr :=
  Ptr.deref ptr

/-- `AsMut::as_mut`: `&mut **self` — a reborrow of `deref_mut`. -/
def Ptr.as_mut (ptr : Ptr) : Addr :=
  Ptr.deref_mut ptr

/-- `Borrow::borrow`: `&**self`. -/
def Ptr.borrow (ptr : Ptr) : Addr :=
  Ptr.deref ptr

/-- `BorrowMut::borrow_mut`: `&mut **self`. -/
def Ptr.borrow_mut (ptr : Ptr) : Addr :=
  Ptr.deref_mut ptr

/-- `impl Drop for Ptr<T> { fn drop(&mut self) { Alloc::free(self.0); } }` —
unconditionally invokes the capability on the stored address. -/
def Ptr.drop (ptr : Ptr) (log : FreeLog) : FreeLog :=
  Alloc.free ptr.raw log

/-- Drop-glue state of one `Ptr` instance: `owning` while the drop glue is
still armed, `released` once `mem::forget` ran (`into_raw`) or the glue
already fired at end of scope. -/
inductive Status
  | owning
  | released

/-- One `Ptr<T>` instance together with its drop-glue state. -/
structure Handle where
  ptr : Ptr
  status : Status

/-- Wrapping a raw address: `Ptr::from_raw(p)` with the drop glue armed. -/
def wrap (p : Addr) : Handle :=
  ⟨Ptr.from_raw p, Status.owning⟩

/-- The operations available on a `Ptr` instance during its lifetime. -/
inductive Op
  | peek
  | peekMut
  | derefOp
  | derefMutOp
  | asRefOp
  | asMutOp
  | borrowOp
  | borrowMutOp
  | unwrap
  | endScope

/-- The borrow operations: every operation except extraction and end of scope. -/
def Op.isBorrow : Op → Bool
  | .unwrap => false
  | .endScope => false
  | _ => true

/-- One step of the instance's lifetime.  Borrow operations return the stored
address (their return values are the pure `Ptr` accessors above) and touch
neither the handle nor the log.  `unwrap` is `into_raw`'s `mem::forget`, which
disarms the drop glue without calling `free`.  `endScope` is Rust's drop glue:
it runs `Drop::drop` — which calls `Alloc::free(self.0)` — exactly when the
instance has not been forgotten or dropped already. -/
def step (h : Handle) (log : FreeLog) : Op → Handle × FreeLog
  | .unwrap => (⟨h.ptr, Status.released⟩, log)
  | .endScope =>
    match h.status with
    | .owning => (⟨h.ptr, Status.released⟩, Ptr.drop h.ptr log)
    | .released => (h, log)
  | _ => (h, log)

/-- Run a whole operation trace on one instance. -/
def run (h : Handle) (log : FreeLog) : List Op → Handle × FreeLog
  | [] => (h, log)
  | op :: ops => run (step h log op).1 (step h log op).2 ops

/-- `enum Never {}` — no constructors. -/
inductive Never

/-- `pub struct Private(Never);` — the opaque marker, whose sole field is
uninhabited. -/
structure Private where
  inner : Never

/-- The pointee memory, as a store mapping addresses to values; used to state
that a write through one accessor is visible through another. -/
abbrev Mem := Addr → Nat

/-- Write `v` at address `a`. -/
def Mem.write (m : Mem) (a : Addr) (v : Nat) : Mem :=
  fun x => if x = a then v else m x

/-- Read the value at address `a`. -/
def Mem.read (m : Mem) (a : Addr) : Nat :=
  m a

/-- `impl_ptr!($wrapper, $type)`, `AsRef` arm: the generated
`fn as_ref(&self) -> &$type { self.0.as_ref() }`, for any wrapper type `W`
whose field 0 (projection `field0`) is the embedded `Ptr`. -/
def implPtr.as_ref {W : Type} (field0 : W → Ptr) (w : W) : Addr :=
  Ptr.as_ref (field0 w)

/-- `impl_ptr!`, `Deref` arm: `fn deref(&self) -> &$type { self.0.deref() }`. -/
def implPtr.deref {W : Type} (field0 : W → Ptr) (w : W) : Addr :=
  Ptr.deref (field0 w)

/-- `impl_ptr!`, `DerefMut` arm:
`fn deref_mut(&mut self) -> &mut $type { self.0.deref_mut() }`. -/
def implPtr.deref_mut {W : Type} (field0 : W → Ptr) (w : W) : Addr :=
  Ptr.deref_mut (field0 w)

/-! ## Helper lemmas about the handle machine -/

/-- A borrow operation changes neither the handle nor the free log. -/
lemma step_borrow (h : Handle) (log : FreeLog) (op : Op)
    (hb : op.isBorrow = true) : step h log op = (h, log) := by
  cases op <;> simp_all [Op.isBorrow, step]

/-- Traces compose. -/
lemma run_append (ops1 ops2 : List Op) : ∀ (h : Handle) (log : FreeLog),
    run h log (ops1 ++ ops2) = run (run h log ops1).1 (run h log ops1).2 ops2 := by
  induction ops1 with
  | nil => intro h log; rfl
  | cons op ops ih =>
    intro h log
    simp only [List.cons_append, run]
    exact ih _ _

/-- A trace of borrow operations changes neither the handle nor the log. -/
lemma run_borrows (bs : List Op) : ∀ (h : Handle) (log : FreeLog),
    bs.all Op.isBorrow = true → run h log bs = (h, log) := by
  induction bs with
  | nil => intro h log _; rfl
  | cons op ops ih =>
    intro h log hb
    rw [List.all_cons, Bool.and_eq_true] at hb
    show run (step h log op).1 (step h log op).2 ops = (h, log)
    rw [step_borrow h log op hb.1]
    exact ih h log hb.2

/-- Once the drop glue is disarmed, no operation has any effect: the handle
stays `released` and the free log never grows. -/
lemma run_released (ops : List Op) : ∀ (p : Ptr) (log : FreeLog),
    run ⟨p, Status.released⟩ log ops = (⟨p, Status.released⟩, log) := by
  induction ops with
  | nil => intro p log; rfl
  | cons op ops ih =>
    intro p log
    have hs : step ⟨p, Status.released⟩ log op = (⟨p, Status.released⟩, log) := by
      cases op <;> rfl
    show run (step ⟨p, Status.released⟩ log op).1
        (step ⟨p, Status.released⟩ log op).2 ops = _
    rw [hs]
    exact ih p log

/-- Master lemma: a trace never changes the stored address, and it appends to
the free log either nothing, or — only starting from an armed (`owning`)
handle — exactly one entry, the stored address, leaving the glue disarmed. -/
lemma run_frees (ops : List Op) : ∀ (h : Handle) (log : FreeLog),
    (run h log ops).1.ptr = h.ptr ∧
      ((run h log ops).2 = log ∨
        (h.status = Status.owning ∧
          (run h log ops).2 = log ++ [h.ptr.raw] ∧
          (run h log ops).1.status = Status.released)) := by
  induction ops with
  | nil => intro h log; exact ⟨rfl, Or.inl rfl⟩
  | cons op ops ih =>
    intro h log
    obtain ⟨p, st⟩ := h
    cases op with
    | unwrap =>
      have hu : run ⟨p, st⟩ log (Op.unwrap :: ops) =
          run ⟨p, Status.released⟩ log ops := rfl
      rw [hu, run_released ops p log]
      exact ⟨rfl, Or.inl rfl⟩
    | endScope =>
      cases st with
      | owning =>
        have he : run ⟨p, Status.owning⟩ log (Op.endScope :: ops) =
            run ⟨p, Status.released⟩ (log ++ [p.raw]) ops := rfl
        rw [he, run_released ops p (log ++ [p.raw])]
        exact ⟨rfl, Or.inr ⟨rfl, rfl, rfl⟩⟩
      | released =>
        have he : run ⟨p, Status.released⟩ log (Op.endScope :: ops) =
            run ⟨p, Status.released⟩ log ops := rfl
        rw [he, run_released ops p log]
        exact ⟨rfl, Or.inl rfl⟩
    | peek => exact ih ⟨p, st⟩ log
    | peekMut => exact ih ⟨p, st⟩ log
    | derefOp => exact ih ⟨p, st⟩ log
    | derefMutOp => exact ih ⟨p, st⟩ log
    | asRefOp => exact ih ⟨p, st⟩ log
    | asMutOp => exact ih ⟨p, st⟩ log
    | borrowOp => exact ih ⟨p, st⟩ log
    | borrowMutOp => exact ih ⟨p, st⟩ log

/-! ## The claims -/

/-- Claim C1: a `Ptr` created by `Ptr::from_raw(p)` that reaches end of life
without being extracted invokes `Alloc::free` exactly once, and that
invocation receives exactly the wrapped address `p`: after any borrow-only
trace, the end-of-scope drop glue appends exactly one entry, `p`, to the
release log, and leaves the instance `released`. -/
theorem C1_scope_end_releases_once (p : Addr) (log : FreeLog) (bs : List Op)
    (hb : bs.all Op.isBorrow = true) :
    run (wrap p) log (bs ++ [Op.endScope]) =
      (⟨Ptr.from_raw p, Status.released⟩, log ++ [p]) := by
  rw [run_append, run_borrows bs (wrap p) log hb]
  rfl

/-- Witness for C1 at `p = 7` with two borrow operations before end of scope. -/
theorem C1_scope_end_releases_once_witness :
    [Op.peek, Op.derefOp].all Op.isBorrow = true ∧
      run (wrap 7) [] ([Op.peek, Op.derefOp] ++ [Op.endScope]) =
        (⟨Ptr.from_raw 7, Status.released⟩, [] ++ [7]) :=
  ⟨by decide, C1_scope_end_releases_once 7 [] [Op.peek, Op.derefOp] (by decide)⟩

/-- Claim C2: `Ptr::into_raw(Ptr::from_raw(p))` returns exactly `p`; the
extraction step itself calls no release (`mem::forget` only disarms the drop
glue); and no operation trace on the consumed handle ever grows the release
log afterward. -/
theorem C2_unwrap_wrap_identity (p : Addr) (log : FreeLog) (ops : List Op) :
    Ptr.into_raw (Ptr.from_raw p) = p ∧
      step (wrap p) log Op.unwrap = (⟨Ptr.from_raw p, Status.released⟩, log) ∧
      run ⟨Ptr.from_raw p, Status.released⟩ log ops =
        (⟨Ptr.from_raw p, Status.released⟩, log) :=
  ⟨rfl, rfl, run_released ops (Ptr.from_raw p) log⟩

/-- Claim C3: over every operation trace, a `Ptr` instance releases at most
once — the log grows by nothing, or (only from the armed `owning` state) by
exactly one entry, the stored address, with the instance ending `released` —
and a `released` instance never returns to `owning` and never releases again. -/
theorem C3_release_at_most_once (h : Handle) (log : FreeLog) (ops : List Op) :
    ((run h log ops).2 = log ∨
       (h.status = Status.owning ∧
         (run h log ops).2 = log ++ [h.ptr.raw] ∧
         (run h log ops).1.status = Status.released)) ∧
      (h.status = Status.released → run h log ops = (h, log)) := by
  refine ⟨(run_frees ops h log).2, fun hrel => ?_⟩
  obtain ⟨p, st⟩ := h
  cases st with
  | owning => exact absurd hrel (by simp)
  | released => exact run_released ops p log

/-- Witness for C3: a disarmed handle stays disarmed and silent. -/
theorem C3_release_at_most_once_witness :
    Handle.status ⟨Ptr.from_raw 2, Status.released⟩ = Status.released ∧
      run ⟨Ptr.from_raw 2, Status.released⟩ [] [Op.endScope] =
        (⟨Ptr.from_raw 2, Status.released⟩, []) :=
  ⟨rfl, (C3_release_at_most_once ⟨Ptr.from_raw 2, Status.released⟩ []
    [Op.endScope]).2 rfl⟩

/-- Claim C4 counterexample: `Ptr::from_raw` does not establish or enforce
non-nullness — wrapping the null address yields a live `Ptr` whose wrapped
address is null, refuting the claim at `p = 0`. -/
theorem C4_counterexample : ¬ ∀ p : Addr, (Ptr.from_raw p).raw ≠ 0 :=
  fun hcl => hcl 0 rfl

/-- Claim C4 as amended: `Ptr::from_raw` performs no null check and stores
the address unchanged; non-nullness while live is the caller's precondition,
and when the caller wraps a non-null address every operation preserves it. -/
theorem C4_nonnull_is_caller_precondition (p : Addr) (log : FreeLog)
    (ops : List Op) :
    (Ptr.from_raw p).raw = p ∧
      (p ≠ 0 → (run (wrap p) log ops).1.ptr.raw ≠ 0) := by
  refine ⟨rfl, fun hp => ?_⟩
  rw [(run_frees ops (wrap p) log).1]
  exact hp

/-- Witness for C4's amended claim at `p = 3`. -/
theorem C4_nonnull_is_caller_precondition_witness :
    (3 : Addr) ≠ 0 ∧ (run (wrap 3) [] [Op.peek, Op.endScope]).1.ptr.raw ≠ 0 :=
  ⟨by decide,
   (C4_nonnull_is_caller_precondition 3 [] [Op.peek, Op.endScope]).2 (by decide)⟩

/-- Claim C5: every borrow operation (`as_ptr`, `as_raw`, `deref`,
`deref_mut`, and the `AsRef`/`AsMut`/`Borrow`/`BorrowMut` forms) leaves the
handle — in particular the wrapped address and the drop-glue state —
unchanged and calls no release: the free log is untouched. -/
theorem C5_borrows_change_nothing (h : Handle) (log : FreeLog) (op : Op)
    (hb : op.isBorrow = true) : step h log op = (h, log) :=
  step_borrow h log op hb

/-- Witness for C5: a mutable dereference on an armed handle. -/
theorem C5_borrows_change_nothing_witness :
    Op.isBorrow Op.derefMutOp = true ∧
      step ⟨Ptr.from_raw 5, Status.owning⟩ [] Op.derefMutOp =
        (⟨Ptr.from_raw 5, Status.owning⟩, []) :=
  ⟨rfl, C5_borrows_change_nothing ⟨Ptr.from_raw 5, Status.owning⟩ []
    Op.derefMutOp rfl⟩

/-- Claim C6: `Ptr::as_ptr` and `Ptr::as_raw` return exactly the wrapped
address, and neither consumes the handle nor transfers ownership: the peek
steps leave handle and log unchanged. -/
theorem C6_peek_returns_wrapped_address (q : Ptr) (h : Handle) (log : FreeLog) :
    Ptr.as_ptr q = q.raw ∧ Ptr.as_raw q = q.raw ∧
      step h log Op.peek = (h, log) ∧ step h log Op.peekMut = (h, log) :=
  ⟨rfl, rfl, rfl, rfl⟩

/-- Claim C7: `Private` (whose sole field is the constructor-less `Never`)
is uninhabited, and so is any wrapper type that projects onto a `Private`
field. -/
theorem C7_private_uninhabited :
    IsEmpty Private ∧ ∀ (W : Type), (W → Private) → IsEmpty W :=
  ⟨⟨fun x => nomatch x.inner⟩, fun _ field0 => ⟨fun w => nomatch (field0 w).inner⟩⟩

/-- Claim C8: the operations generated by `impl_ptr!` forward exactly to the
embedded `Ptr`'s own operations, and a write through the wrapper's mutable
borrow is visible through a subsequent read-only borrow of the same wrapper. -/
theorem C8_delegation_transparent {W : Type} (field0 : W → Ptr) (w : W)
    (m : Mem) (v : Nat) :
    implPtr.as_ref field0 w = Ptr.deref (field0 w) ∧
      implPtr.deref field0 w = Ptr.deref (field0 w) ∧
      implPtr.deref_mut field0 w = Ptr.deref_mut (field0 w) ∧
      Mem.read (Mem.write m (implPtr.deref_mut field0 w) v)
        (implPtr.deref field0 w) = v := by
  refine ⟨rfl, rfl, rfl, ?_⟩
  simp [Mem.read, Mem.write, implPtr.deref, implPtr.deref_mut,
    Ptr.deref, Ptr.deref_mut]

/-- Claim C9: `Ptr::from_raw` stores the address unchanged with no
validation, and the drop glue passes exactly that address to `Alloc::free` —
in particular a handle wrapped around null releases null rather than skipping
the call. -/
theorem C9_no_validation_null_is_freed (p : Addr) (log : FreeLog) :
    (Ptr.from_raw p).raw = p ∧
      Ptr.drop (Ptr.from_raw p) log = log ++ [p] ∧
      run (wrap 0) log [Op.endScope] =
        (⟨Ptr.from_raw 0, Status.released⟩, log ++ [0]) :=
  ⟨rfl, rfl, rfl⟩

/-- Claim C10: every address-exposing operation of `Ptr` denotes the same
stored address; the shared-access forms all equal `deref` as functions and
the exclusive-access forms all equal `deref_mut` as functions. -/
theorem C10_accessors_agree (q : Ptr) :
    Ptr.as_ptr q = q.raw ∧ Ptr.as_raw q = q.raw ∧
      Ptr.as_ref q = q.raw ∧ Ptr.as_mut q = q.raw ∧
      Ptr.borrow q = q.raw ∧ Ptr.borrow_mut q = q.raw ∧
      Ptr.deref q = q.raw ∧ Ptr.deref_mut q = q.raw ∧
      Ptr.as_ref = Ptr.deref ∧ Ptr.borrow = Ptr.deref ∧
      Ptr.as_mut = Ptr.deref_mut ∧ Ptr.borrow_mut = Ptr.deref_mut :=
  ⟨rfl, rfl, rfl, rfl, rfl, rfl, rfl, rfl, rfl, rfl, rfl, rfl⟩

end cffi
